import Mathlib

/-! Shallow embedding of the ledger core.

Shallow embedding of the Estate-Management ledger core
(`src/estate/views.py`, `src/estate/models.py`) and proofs about it.

Conventions of the embedding:
* A month is "month-start normalized" everywhere in the source
  (`.replace(day=1)`, steps of `relativedelta(months=1)`), so months are
  modelled as consecutive naturals `ℕ`; `m + 1` is the next month.
* Python `Decimal` values embed into `ℚ`: every operation the views
  perform on them (`+`, `-`, `min`, `max`, comparison, multiplication,
  division by 100 of ≤ 10-digit values under the 28-digit default
  context) is exact, so amounts are modelled as `ℚ`.
* `strftime("%B %Y")` month labels are injective on normalized months,
  so label lists are modelled by the months themselves.
* Django querysets over a table become Lean lists of rows; aggregate
  queries become folds over those lists.
-/

namespace Estate

/-- One row of a time-effective schedule table (`TenantRent`,
`EmployeeSalary`, `CommissionRate`): `value` becomes active at month
`effective_from`.  Per-subject tables are the rows for one subject. -/
structure SchedEntry where
  effective_from : ℕ
  value : ℚ
deriving Repr, DecidableEq

/-- `.filter(effective_from__lte=m).order_by("-effective_from").first()`:
the row with the greatest `effective_from ≤ m`, if any.  (Every schedule
table carries a uniqueness constraint on `effective_from` per subject, so
ties do not arise in repository states; on a tie this keeps the earlier row.) -/
def latestAtOrBefore (entries : List SchedEntry) (m : ℕ) : Option SchedEntry :=
  (entries.filter (fun e => e.effective_from ≤ m)).foldl
    (fun acc e =>
      match acc with
      | none => some e
      | some a => if a.effective_from < e.effective_from then some e else some a)
    none

/-- `views.get_rent_for_month`: `return row[0] if row else Decimal("0")` —
the fallback when no schedule row qualifies is ZERO, not `None`. -/
def get_rent_for_month (sched : List SchedEntry) (m : ℕ) : ℚ :=
  match latestAtOrBefore sched m with
  | some e => e.value
  | none => 0

/-- `models.get_rent_for_month`: same lookup, but
`return tenant.monthly_rent` (the legacy initial rent) when no schedule
row qualifies — again a defined value, not `None`. -/
def models_get_rent_for_month (sched : List SchedEntry) (monthly_rent : ℚ)
    (m : ℕ) : ℚ :=
  match latestAtOrBefore sched m with
  | some e => e.value
  | none => monthly_rent

/-- `views.get_salary_for_month`: `return row[0] if row else None`. -/
def get_salary_for_month (sched : List SchedEntry) (m : ℕ) : Option ℚ :=
  (latestAtOrBefore sched m).map (fun e => e.value)

/-- `get_commission_rate_for_date`: latest `CommissionRate.percentage`
with `effective_from ≤ date_paid.replace(day=1)`; `Decimal("0")` if none
is configured.  `payMonth` is the month of the payment date. -/
def get_commission_rate_for_date (rates : List SchedEntry) (payMonth : ℕ) : ℚ :=
  match latestAtOrBefore rates payMonth with
  | some e => e.value
  | none => 0

/-- A `RentPayment` row: `amount` booked to ledger month `payment_month`. -/
structure Payment where
  payment_month : ℕ
  amount : ℚ
deriving Repr, DecidableEq

/-- `RentPayment.objects.filter(payment_month=m).aggregate(Sum("amount")) or 0`:
total amount booked to month `m`. -/
def paidFor (ps : List Payment) (m : ℕ) : ℚ :=
  ((ps.filter (fun p => p.payment_month = m)).map (fun p => p.amount)).sum

/-- `_iter_month_starts a b`: the months `a, a+1, …, b` in chronological
order (empty when `a > b`). -/
def monthRange (a b : ℕ) : List ℕ :=
  List.range' a (b + 1 - a)

/-- The per-tenant record `build_tenant_payment_status` appends for each
tenant (the derived `MonthlyStatus`). -/
structure TenantStatus where
  paid : ℚ
  rent_due : ℚ
  balance : ℚ
  is_paid : Bool
  missed_months : ℕ
  missed_month_names : List ℕ
  status_type : String
deriving Repr, DecidableEq

/-- Loop body of the arrears loop in `build_tenant_payment_status`
(accumulator: `missed_months`, `missed_month_names` in chronological
order, `cumulative_outstanding`).  The source's
`if rent_m is None: continue` guard is unreachable because
`views.get_rent_for_month` returns `Decimal("0")`, never `None`. -/
def missedStep (sched : List SchedEntry) (paid_by_month : ℕ → ℚ)
    (acc : ℕ × List ℕ × ℚ) (m : ℕ) : ℕ × List ℕ × ℚ :=
  let paid_m := paid_by_month m
  let rent_m := get_rent_for_month sched m
  let remaining_m := rent_m - paid_m
  if 0 < remaining_m then
    (acc.1 + 1, acc.2.1 ++ [m], acc.2.2 + remaining_m)
  else
    acc

/-- `build_tenant_payment_status`, for one tenant: compute the selected
month's paid/due, classify the cumulative arrears over
`[tenant_start_month, selected_month]`, and apply the hybrid display
rule.  (The source's `if due_selected is None` safety branch is
unreachable for the same reason as in `missedStep`.) -/
def build_tenant_payment_status (sched : List SchedEntry) (payments : List Payment)
    (tenant_start_month today_month selected_month : ℕ) : TenantStatus :=
  let last_paid_month : Option ℕ := (payments.map (fun p => p.payment_month)).max?
  let end_month := max (max selected_month today_month) (last_paid_month.getD today_month)
  let window := payments.filter (fun p => p.payment_month ≤ end_month)
  let paid_by_month : ℕ → ℚ := fun m => paidFor window m
  let paid_selected := paid_by_month selected_month
  let due_selected := get_rent_for_month sched selected_month
  let partial_selected := 0 < paid_selected ∧ paid_selected < due_selected
  let acc := (monthRange tenant_start_month selected_month).foldl
      (missedStep sched paid_by_month) (0, [], 0)
  let missed_months := acc.1
  let names_reversed := acc.2.1.reverse
  let cumulative_outstanding := acc.2.2
  let balance :=
    if partial_selected then max (due_selected - paid_selected) 0
    else max cumulative_outstanding 0
  let missed_month_names :=
    if partial_selected then [selected_month] else names_reversed
  let status_type :=
    if partial_selected then "Partial"
    else if 0 < balance ∧ 1 < missed_months then "Cumulative"
    else if 0 < balance ∧ missed_months = 1 then "Missed"
    else "On Time"
  { paid := paid_selected
    rent_due := due_selected
    balance := balance
    is_paid := balance ≤ 0
    missed_months := missed_months
    missed_month_names := missed_month_names
    status_type := status_type }

/-- Cumulative outstanding as the spec words it: over every month from
the tenant's start month through the selected month, the positive part
of `due − paid`, summed. -/
def cumulativeOutstanding (sched : List SchedEntry) (payments : List Payment)
    (start_month selected_month : ℕ) : ℚ :=
  ((monthRange start_month selected_month).map (fun m =>
    if 0 < get_rent_for_month sched m - paidFor payments m then
      get_rent_for_month sched m - paidFor payments m
    else 0)).sum

/-! Section: Helper lemmas about the reconciliation engine -/

lemma paidFor_cons (p : Payment) (ps : List Payment) (m : ℕ) :
    paidFor (p :: ps) m
      = (if p.payment_month = m then p.amount else 0) + paidFor ps m := by
  by_cases h : p.payment_month = m <;> simp [paidFor, List.filter_cons, h]

lemma paidFor_append (a b : List Payment) (m : ℕ) :
    paidFor (a ++ b) m = paidFor a m + paidFor b m := by
  simp [paidFor, List.filter_append]

/-- Restricting the ledger to months `≤ e` does not change the total
booked to a month `m ≤ e`. -/
lemma paidFor_window (ps : List Payment) (e m : ℕ) (h : m ≤ e) :
    paidFor (ps.filter (fun p => p.payment_month ≤ e)) m = paidFor ps m := by
  induction ps with
  | nil => rfl
  | cons p ps ih =>
    rw [List.filter_cons]
    by_cases he : p.payment_month ≤ e
    · simp [he, paidFor_cons, ih]
    · have hm : p.payment_month ≠ m := fun heq => he (by rw [heq]; exact h)
      simp [he, paidFor_cons, hm, ih]

lemma mem_monthRange {a b m : ℕ} (h : m ∈ monthRange a b) : a ≤ m ∧ m ≤ b := by
  simp only [monthRange, List.mem_range'_1] at h
  rcases h with ⟨h1, h2⟩
  exact ⟨h1, by omega⟩

/-- Closed form of the arrears loop of `build_tenant_payment_status`. -/
lemma missedStep_foldl (sched : List SchedEntry) (pbm : ℕ → ℚ)
    (months : List ℕ) (c : ℕ) (ns : List ℕ) (q : ℚ) :
    months.foldl (missedStep sched pbm) (c, ns, q) =
      (c + (months.filter
              (fun m => decide (0 < get_rent_for_month sched m - pbm m))).length,
       ns ++ months.filter
              (fun m => decide (0 < get_rent_for_month sched m - pbm m)),
       q + ((months.filter
              (fun m => decide (0 < get_rent_for_month sched m - pbm m))).map
              (fun m => get_rent_for_month sched m - pbm m)).sum) := by
  induction months generalizing c ns q with
  | nil => simp
  | cons m ms ih =>
    simp only [List.foldl_cons, List.filter_cons, missedStep]
    by_cases h : 0 < get_rent_for_month sched m - pbm m
    · simp only [h, if_pos, decide_True, ih, List.length_cons, List.map_cons,
        List.sum_cons, Prod.mk.injEq, List.append_assoc, List.singleton_append,
        List.cons_append]
      refine ⟨by omega, rfl, by ring⟩
    · simp [h, ih]

lemma filter_map_sum_posPart (months : List ℕ) (f : ℕ → ℚ) :
    ((months.filter (fun m => decide (0 < f m))).map f).sum
      = (months.map (fun m => if 0 < f m then f m else 0)).sum := by
  induction months with
  | nil => rfl
  | cons m ms ih => by_cases h : 0 < f m <;> simp [List.filter_cons, h, ih]

lemma cumulativeOutstanding_nonneg (sched : List SchedEntry) (payments : List Payment)
    (a b : ℕ) : 0 ≤ cumulativeOutstanding sched payments a b := by
  apply List.sum_nonneg
  intro x hx
  simp only [cumulativeOutstanding, List.mem_map] at hx
  obtain ⟨m, -, rfl⟩ := hx
  by_cases h : 0 < get_rent_for_month sched m - paidFor payments m
  · rw [if_pos h]; exact le_of_lt h
  · rw [if_neg h]

/-- Full closed form of `build_tenant_payment_status`: the payment-window
bookkeeping is equivalent to reading the raw ledger, and the result is
the hybrid-rule record over `paidFor`/`get_rent_for_month`/
`cumulativeOutstanding`. -/
lemma build_tenant_payment_status_eq (sched : List SchedEntry) (payments : List Payment)
    (s t sel : ℕ) :
    build_tenant_payment_status sched payments s t sel =
      (if 0 < paidFor payments sel ∧ paidFor payments sel < get_rent_for_month sched sel then
        { paid := paidFor payments sel
          rent_due := get_rent_for_month sched sel
          balance := max (get_rent_for_month sched sel - paidFor payments sel) 0
          is_paid := max (get_rent_for_month sched sel - paidFor payments sel) 0 ≤ 0
          missed_months := ((monthRange s sel).filter
            (fun m => decide (0 < get_rent_for_month sched m - paidFor payments m))).length
          missed_month_names := [sel]
          status_type := "Partial" }
      else
        { paid := paidFor payments sel
          rent_due := get_rent_for_month sched sel
          balance := max (cumulativeOutstanding sched payments s sel) 0
          is_paid := max (cumulativeOutstanding sched payments s sel) 0 ≤ 0
          missed_months := ((monthRange s sel).filter
            (fun m => decide (0 < get_rent_for_month sched m - paidFor payments m))).length
          missed_month_names := ((monthRange s sel).filter
            (fun m => decide (0 < get_rent_for_month sched m - paidFor payments m))).reverse
          status_type :=
            if 0 < max (cumulativeOutstanding sched payments s sel) 0 ∧
                1 < ((monthRange s sel).filter
                  (fun m => decide (0 < get_rent_for_month sched m - paidFor payments m))).length
            then "Cumulative"
            else if 0 < max (cumulativeOutstanding sched payments s sel) 0 ∧
                ((monthRange s sel).filter
                  (fun m => decide (0 < get_rent_for_month sched m - paidFor payments m))).length = 1
            then "Missed"
            else "On Time" } : TenantStatus) := by
  unfold build_tenant_payment_status
  have hsel : sel ≤ max (max sel t)
      (((payments.map (fun p => p.payment_month)).max?).getD t) :=
    le_trans (le_max_left sel t) (le_max_left _ _)
  have hwin : ∀ m, m ≤ sel →
      paidFor (payments.filter (fun p => p.payment_month ≤
        max (max sel t) (((payments.map (fun p => p.payment_month)).max?).getD t))) m
        = paidFor payments m :=
    fun m hm => paidFor_window _ _ _ (le_trans hm hsel)
  have hfilter :
      (monthRange s sel).filter
        (fun m => decide (0 < get_rent_for_month sched m -
          paidFor (payments.filter (fun p => p.payment_month ≤
            max (max sel t) (((payments.map (fun p => p.payment_month)).max?).getD t))) m))
      = (monthRange s sel).filter
        (fun m => decide (0 < get_rent_for_month sched m - paidFor payments m)) := by
    apply List.filter_congr
    intro m hm
    rw [hwin m (mem_monthRange hm).2]
  have hmap :
      ((monthRange s sel).filter
        (fun m => decide (0 < get_rent_for_month sched m - paidFor payments m))).map
        (fun m => get_rent_for_month sched m -
          paidFor (payments.filter (fun p => p.payment_month ≤
            max (max sel t) (((payments.map (fun p => p.payment_month)).max?).getD t))) m)
      = ((monthRange s sel).filter
        (fun m => decide (0 < get_rent_for_month sched m - paidFor payments m))).map
        (fun m => get_rent_for_month sched m - paidFor payments m) := by
    apply List.map_congr_left
    intro m hm
    rw [hwin m (mem_monthRange (List.mem_of_mem_filter hm)).2]
  have hcum :
      (((monthRange s sel).filter
        (fun m => decide (0 < get_rent_for_month sched m - paidFor payments m))).map
        (fun m => get_rent_for_month sched m - paidFor payments m)).sum
        = cumulativeOutstanding sched payments s sel := by
    rw [filter_map_sum_posPart]
    rfl
  simp only [missedStep_foldl, hwin sel le_rfl, hfilter, hmap, hcum, Nat.zero_add,
    List.nil_append, zero_add]
  split <;> rfl

/-! Section C1 — hybrid display rule -/

/-- Claim C1: for every tenant reconciliation, if the selected month is
partially paid (`0 < paid_selected < due_selected`) the reported balance
is exactly the selected month's remaining amount and the missed-month
label list collapses to the selected month alone; otherwise the reported
balance is the full cumulative outstanding over all months from the
tenant's start month through the selected month. -/
theorem C1_hybrid_display_rule (sched : List SchedEntry) (payments : List Payment)
    (s t sel : ℕ) :
    (0 < paidFor payments sel ∧ paidFor payments sel < get_rent_for_month sched sel →
      (build_tenant_payment_status sched payments s t sel).balance
          = get_rent_for_month sched sel - paidFor payments sel ∧
      (build_tenant_payment_status sched payments s t sel).missed_month_names = [sel]) ∧
    (¬ (0 < paidFor payments sel ∧ paidFor payments sel < get_rent_for_month sched sel) →
      (build_tenant_payment_status sched payments s t sel).balance
          = cumulativeOutstanding sched payments s sel) := by
  rw [build_tenant_payment_status_eq]
  constructor
  · intro h
    rw [if_pos h]
    refine ⟨?_, rfl⟩
    show max (get_rent_for_month sched sel - paidFor payments sel) 0
        = get_rent_for_month sched sel - paidFor payments sel
    exact max_eq_left (by linarith [h.2])
  · intro h
    rw [if_neg h]
    show max (cumulativeOutstanding sched payments s sel) 0
        = cumulativeOutstanding sched payments s sel
    exact max_eq_left (cumulativeOutstanding_nonneg sched payments s sel)

/-- Witness for C1: due = 1000 and paid = 400 for the selected month 2
with months 0 and 1 fully unpaid — the reported balance is 600 (not the
2600 cumulative total) and the label list is just the selected month. -/
theorem C1_hybrid_display_rule_witness :
    (0 < paidFor [⟨2, 400⟩] 2 ∧
      paidFor [⟨2, 400⟩] 2 < get_rent_for_month [⟨0, 1000⟩] 2) ∧
    ((build_tenant_payment_status [⟨0, 1000⟩] [⟨2, 400⟩] 0 2 2).balance
        = get_rent_for_month [⟨0, 1000⟩] 2 - paidFor [⟨2, 400⟩] 2 ∧
      (build_tenant_payment_status [⟨0, 1000⟩] [⟨2, 400⟩] 0 2 2).missed_month_names = [2]) :=
  ⟨by norm_num [paidFor, get_rent_for_month, latestAtOrBefore],
    (C1_hybrid_display_rule [⟨0, 1000⟩] [⟨2, 400⟩] 0 2 2).1
      (by norm_num [paidFor, get_rent_for_month, latestAtOrBefore])⟩

/-! Section C2 — status classification priority -/

/-- Claim C2: the status label is decided in priority order — `"Partial"`
when the selected month is partially paid; else `"Cumulative"` when the
reported balance is positive and more than one month is missed; else
`"Missed"` when the reported balance is positive and exactly one month is
missed; else `"On Time"`.  The second part checks the spec's full-arrears
example: due 1000/month, nothing paid for months 0–2, selected month 2 —
status `"Cumulative"`, balance 3000, all three months listed most recent
first. -/
theorem C2_status_priority (sched : List SchedEntry) (payments : List Payment)
    (s t sel : ℕ) :
    ((build_tenant_payment_status sched payments s t sel).status_type =
      (if 0 < paidFor payments sel ∧ paidFor payments sel < get_rent_for_month sched sel
       then "Partial"
       else if 0 < (build_tenant_payment_status sched payments s t sel).balance ∧
           1 < (build_tenant_payment_status sched payments s t sel).missed_months
       then "Cumulative"
       else if 0 < (build_tenant_payment_status sched payments s t sel).balance ∧
           (build_tenant_payment_status sched payments s t sel).missed_months = 1
       then "Missed"
       else "On Time")) ∧
    (build_tenant_payment_status [⟨0, 1000⟩] [] 0 2 2).status_type = "Cumulative" ∧
    (build_tenant_payment_status [⟨0, 1000⟩] [] 0 2 2).balance = 3000 ∧
    (build_tenant_payment_status [⟨0, 1000⟩] [] 0 2 2).missed_months = 3 ∧
    (build_tenant_payment_status [⟨0, 1000⟩] [] 0 2 2).missed_month_names = [2, 1, 0] := by
  refine ⟨?_, ?_, ?_, ?_, ?_⟩
  · rw [build_tenant_payment_status_eq]
    by_cases h : 0 < paidFor payments sel ∧
        paidFor payments sel < get_rent_for_month sched sel
    · rw [if_pos h, if_pos h]
    · rw [if_neg h, if_neg h]
  · norm_num [build_tenant_payment_status, missedStep, monthRange, paidFor,
      get_rent_for_month, latestAtOrBefore, List.range']
  · norm_num [build_tenant_payment_status, missedStep, monthRange, paidFor,
      get_rent_for_month, latestAtOrBefore, List.range']
  · norm_num [build_tenant_payment_status, missedStep, monthRange, paidFor,
      get_rent_for_month, latestAtOrBefore, List.range']
  · norm_num [build_tenant_payment_status, missedStep, monthRange, paidFor,
      get_rent_for_month, latestAtOrBefore, List.range']

/-! Section C5 — undefined-due sentinel for months predating the schedule -/

lemma latestAtOrBefore_eq_none (sched : List SchedEntry) (m : ℕ)
    (h : ∀ e ∈ sched, m < e.effective_from) :
    latestAtOrBefore sched m = none := by
  unfold latestAtOrBefore
  have hnil : sched.filter (fun e => decide (e.effective_from ≤ m)) = [] := by
    rw [List.filter_eq_nil_iff]
    intro e he
    simp only [decide_eq_true_eq, not_le]
    exact h e he
  rw [hnil]
  rfl

lemma paidFor_nonneg (ps : List Payment) (m : ℕ) (h : ∀ p ∈ ps, 0 ≤ p.amount) :
    0 ≤ paidFor ps m := by
  apply List.sum_nonneg
  intro x hx
  simp only [paidFor, List.mem_map, List.mem_filter] at hx
  obtain ⟨p, ⟨hp, -⟩, rfl⟩ := hx
  exact h p hp

/-- Counterexample to **C5** as stated: for a month that predates every
schedule entry, the rent lookups return a *defined* value — `Decimal("0")`
in `views.get_rent_for_month`, the legacy `monthly_rent` in
`models.get_rent_for_month` — not a `None` sentinel; and the
reconciliation loop processes such a month with zero due rather than
skipping it (observable through a negative adjustment row, creatable via
the admin screen: month 0 predates the schedule that starts at month 2,
yet it is counted among the missed months). -/
theorem C5_counterexample :
    get_rent_for_month [⟨3, 1000⟩] 1 = 0 ∧
    models_get_rent_for_month [⟨3, 1000⟩] 750 1 = 750 ∧
    (build_tenant_payment_status [⟨2, 1000⟩] [⟨0, -500⟩] 0 2 2).missed_months = 2 ∧
    0 ∈ (build_tenant_payment_status [⟨2, 1000⟩] [⟨0, -500⟩] 0 2 2).missed_month_names := by
  refine ⟨?_, ?_, ?_, ?_⟩ <;>
    norm_num [build_tenant_payment_status, missedStep, monthRange, paidFor,
      get_rent_for_month, models_get_rent_for_month, latestAtOrBefore, List.range']

/-- Claim C5 (amended): only the salary lookup returns the undefined
sentinel (`None`) for a month predating all schedule entries — and
`pay_salary` then refuses; the rent lookups return a defined fallback
(`0` in the views helper, the legacy `monthly_rent` in the models
helper), and tenant reconciliation processes pre-schedule months with a
zero due rather than skipping them — which contributes no missed month
as long as ledger amounts are nonnegative. -/
theorem C5_amended_sentinel (sched : List SchedEntry) (payments : List Payment)
    (monthly_rent : ℚ) (s t sel m : ℕ) :
    ((∀ e ∈ sched, m < e.effective_from) → get_salary_for_month sched m = none) ∧
    ((∀ e ∈ sched, m < e.effective_from) → get_rent_for_month sched m = 0) ∧
    ((∀ e ∈ sched, m < e.effective_from) →
      models_get_rent_for_month sched monthly_rent m = monthly_rent) ∧
    ((∀ p ∈ payments, 0 ≤ p.amount) → get_rent_for_month sched m = 0 →
      m ∉ (build_tenant_payment_status sched payments s t sel).missed_month_names) := by
  refine ⟨?_, ?_, ?_, ?_⟩
  · intro h
    rw [get_salary_for_month, latestAtOrBefore_eq_none sched m h]
    rfl
  · intro h
    rw [get_rent_for_month, latestAtOrBefore_eq_none sched m h]
  · intro h
    rw [models_get_rent_for_month, latestAtOrBefore_eq_none sched m h]
  · intro hpos hdue
    have hp : 0 ≤ paidFor payments m := paidFor_nonneg payments m hpos
    rw [build_tenant_payment_status_eq]
    by_cases h : 0 < paidFor payments sel ∧
        paidFor payments sel < get_rent_for_month sched sel
    · rw [if_pos h]
      simp only [List.mem_singleton]
      intro hm
      subst hm
      rw [hdue] at h
      linarith [h.1, h.2]
    · rw [if_neg h]
      simp only [List.mem_reverse, List.mem_filter, decide_eq_true_eq, not_and]
      intro hmem hlt
      rw [hdue] at hlt
      linarith

/-- Witness for C5 (amended) at concrete inputs: schedules starting at
month 3 resp. 5, queried at earlier months. -/
theorem C5_amended_sentinel_witness :
    get_salary_for_month [⟨3, 100⟩] 1 = none ∧
    get_rent_for_month [⟨3, 1000⟩] 1 = 0 ∧
    models_get_rent_for_month [⟨3, 1000⟩] 750 1 = 750 ∧
    2 ∉ (build_tenant_payment_status [⟨5, 1000⟩] [⟨4, 300⟩] 0 9 9).missed_month_names :=
  ⟨(C5_amended_sentinel [⟨3, 100⟩] [] 0 0 0 0 1).1
      (by intro e he; simp at he; subst he; decide),
   (C5_amended_sentinel [⟨3, 1000⟩] [] 0 0 0 0 1).2.1
      (by intro e he; simp at he; subst he; decide),
   (C5_amended_sentinel [⟨3, 1000⟩] [] 750 0 0 0 1).2.2.1
      (by intro e he; simp at he; subst he; decide),
   (C5_amended_sentinel [⟨5, 1000⟩] [⟨4, 300⟩] 0 0 9 9 2).2.2.2
      (by intro p hp; simp at hp; rw [hp]; norm_num)
      (by norm_num [get_rent_for_month, latestAtOrBefore])⟩

/-! Section: The payment allocator (`add_payment`, POST branch) -/

/-- Python `Decimal.quantize(Decimal("0.01"))` under the default context
rounding (`ROUND_HALF_EVEN`): round to the nearest integer, ties to the
even integer.  Applied to `q * 100` this quantizes to 2 decimal places. -/
def roundHalfEven (q : ℚ) : ℤ :=
  let f := ⌊q⌋
  let r := q - f
  if r < 1/2 then f
  else if 1/2 < r then f + 1
  else if f % 2 = 0 then f else f + 1

/-- `.quantize(Decimal("0.01"))`: round to 2 decimal places, half-even. -/
def quantize2 (q : ℚ) : ℚ := (roundHalfEven (q * 100) : ℚ) / 100

/-- The oldest-first allocation loop of `add_payment` over the historical
window (`for m in months`), with the `if remaining_amount <= 0: break`
top check.  `db` is the `RentPayment` table the per-month `aggregate`
queries run against; it grows with each `RentPayment.objects.create`
inside the transaction.  Returns (created entries in creation order,
collected amount, remaining amount). -/
def allocateWindow (sched : List SchedEntry) :
    List ℕ → List Payment → ℚ → List Payment × ℚ × ℚ
  | [], _db, remaining_amount => ([], 0, remaining_amount)
  | m :: rest, db, remaining_amount =>
    if remaining_amount ≤ 0 then ([], 0, remaining_amount)
    else
      let paid := paidFor db m
      let month_due := get_rent_for_month sched m
      let remaining_due := max (month_due - paid) 0
      if remaining_due ≤ 0 then allocateWindow sched rest db remaining_amount
      else
        let to_pay := min remaining_due remaining_amount
        let entry : Payment := ⟨m, to_pay⟩
        let rec_result := allocateWindow sched rest (db ++ [entry]) (remaining_amount - to_pay)
        (entry :: rec_result.1, to_pay + rec_result.2.1, rec_result.2.2)

/-- The advance-allocation loop of `add_payment`
(`while remaining_amount > 0`, stepping `next_month` forward), modelled
with explicit `fuel` bounding the number of loop iterations — the source
itself has no bound. -/
def allocateFuture (sched : List SchedEntry) :
    ℕ → ℕ → List Payment → ℚ → List Payment × ℚ × ℚ
  | 0, _next_month, _db, remaining_amount => ([], 0, remaining_amount)
  | fuel + 1, next_month, db, remaining_amount =>
    if remaining_amount ≤ 0 then ([], 0, remaining_amount)
    else
      let month_due := get_rent_for_month sched next_month
      let paid := paidFor db next_month
      let remaining_due := max (month_due - paid) 0
      if remaining_due ≤ 0 then
        allocateFuture sched fuel (next_month + 1) db remaining_amount
      else
        let to_pay := min remaining_due remaining_amount
        let entry : Payment := ⟨next_month, to_pay⟩
        let rec_result :=
          allocateFuture sched fuel (next_month + 1) (db ++ [entry]) (remaining_amount - to_pay)
        (entry :: rec_result.1, to_pay + rec_result.2.1, rec_result.2.2)

/-- Outcome of one `add_payment` POST: the `RentPayment` rows created,
the tracked `collected_amount`, the final `remaining_amount`, the
commission fee, and whether a commission `Expense` row is created. -/
structure AllocResult where
  entries : List Payment
  collected_amount : ℚ
  remaining_amount : ℚ
  commission_amount : ℚ
  commission_created : Bool
deriving Repr, DecidableEq

/-- The allocation phase of `add_payment`: the historical window
`[tenant_start_month, selected_month]` oldest first, then consecutive
future months starting right after the last window month
(`months[-1] if months else tenant_start`, plus one).  Returns
(created entries, collected amount, remaining amount). -/
def allocatePayment (fuel : ℕ) (sched : List SchedEntry) (payments : List Payment)
    (tenant_start_month selected_month : ℕ) (amount : ℚ) :
    List Payment × ℚ × ℚ :=
  let months := monthRange tenant_start_month selected_month
  let hist := allocateWindow sched months payments amount
  let next_month := months.getLast?.getD tenant_start_month + 1
  let future := allocateFuture sched fuel next_month (payments ++ hist.1) hist.2.2
  (hist.1 ++ future.1, hist.2.1 + future.2.1, future.2.2)

/-- The POST branch of `add_payment`: reject `amount ≤ 0` ("nothing to
do"), otherwise allocate via `allocatePayment`, then compute the
commission fee from `collected_amount` and the time-effective rate at
the payment date's month, creating an expense row iff the fee is
positive.  `fuel` bounds the future-months loop (see `allocateFuture`). -/
def add_payment (fuel : ℕ) (sched : List SchedEntry) (payments : List Payment)
    (rates : List SchedEntry) (tenant_start_month selected_month pay_month : ℕ)
    (amount : ℚ) : AllocResult :=
  if amount ≤ 0 then
    { entries := [], collected_amount := 0, remaining_amount := amount
      commission_amount := 0, commission_created := false }
  else
    let alloc := allocatePayment fuel sched payments tenant_start_month selected_month amount
    let commission_percentage := get_commission_rate_for_date rates pay_month
    let commission_amount := quantize2 (alloc.2.1 * commission_percentage / 100)
    { entries := alloc.1
      collected_amount := alloc.2.1
      remaining_amount := alloc.2.2
      commission_amount := commission_amount
      commission_created := 0 < commission_amount }

/-- The per-month split exactly as §4.3 of the spec words it: visit the
candidate months in chronological order; for each month compute
`remaining_due = due(month) − already_paid(month)` against the pre-call
ledger; skip the month if `remaining_due ≤ 0`; otherwise allocate
`min(remaining_due, amount_left)` as one new entry and decrement
`amount_left` (allocation stops once `amount_left` is exhausted — ledger
entries carry `amount > 0` by the spec's data model, so no zero-amount
entries are written). -/
def specSplit (dueOf already_paid : ℕ → ℚ) : List ℕ → ℚ → List Payment
  | [], _amount_left => []
  | m :: rest, amount_left =>
    if amount_left ≤ 0 then []
    else
      let remaining_due := dueOf m - already_paid m
      if remaining_due ≤ 0 then specSplit dueOf already_paid rest amount_left
      else
        let pay := min remaining_due amount_left
        ⟨m, pay⟩ :: specSplit dueOf already_paid rest (amount_left - pay)

/-! Section: Helper lemmas about the allocator -/

lemma paidFor_nil (m : ℕ) : paidFor [] m = 0 := rfl

lemma paidFor_singleton (q : Payment) (m : ℕ) :
    paidFor [q] m = if q.payment_month = m then q.amount else 0 := by
  rw [paidFor_cons, paidFor_nil, add_zero]

lemma paidFor_eq_zero_of_not_mem (ps : List Payment) (m : ℕ)
    (h : ∀ q ∈ ps, q.payment_month ≠ m) : paidFor ps m = 0 := by
  induction ps with
  | nil => rfl
  | cons q qs ih =>
    rw [paidFor_cons, if_neg (h q (List.mem_cons_self q qs)), zero_add]
    exact ih (fun q' hq' => h q' (List.mem_cons_of_mem q hq'))

/-- One unfolding step of `allocateWindow` on a nonempty month list. -/
lemma allocateWindow_cons (sched : List SchedEntry) (m : ℕ) (rest : List ℕ)
    (db : List Payment) (r : ℚ) :
    allocateWindow sched (m :: rest) db r =
      if r ≤ 0 then ([], 0, r)
      else if max (get_rent_for_month sched m - paidFor db m) 0 ≤ 0 then
        allocateWindow sched rest db r
      else
        ((⟨m, min (max (get_rent_for_month sched m - paidFor db m) 0) r⟩ : Payment) ::
          (allocateWindow sched rest
            (db ++ [⟨m, min (max (get_rent_for_month sched m - paidFor db m) 0) r⟩])
            (r - min (max (get_rent_for_month sched m - paidFor db m) 0) r)).1,
         min (max (get_rent_for_month sched m - paidFor db m) 0) r +
          (allocateWindow sched rest
            (db ++ [⟨m, min (max (get_rent_for_month sched m - paidFor db m) 0) r⟩])
            (r - min (max (get_rent_for_month sched m - paidFor db m) 0) r)).2.1,
         (allocateWindow sched rest
            (db ++ [⟨m, min (max (get_rent_for_month sched m - paidFor db m) 0) r⟩])
            (r - min (max (get_rent_for_month sched m - paidFor db m) 0) r)).2.2) := rfl

/-- One unfolding step of `allocateFuture` with positive fuel. -/
lemma allocateFuture_succ (sched : List SchedEntry) (fuel next : ℕ)
    (db : List Payment) (r : ℚ) :
    allocateFuture sched (fuel + 1) next db r =
      if r ≤ 0 then ([], 0, r)
      else if max (get_rent_for_month sched next - paidFor db next) 0 ≤ 0 then
        allocateFuture sched fuel (next + 1) db r
      else
        ((⟨next, min (max (get_rent_for_month sched next - paidFor db next) 0) r⟩ : Payment) ::
          (allocateFuture sched fuel (next + 1)
            (db ++ [⟨next, min (max (get_rent_for_month sched next - paidFor db next) 0) r⟩])
            (r - min (max (get_rent_for_month sched next - paidFor db next) 0) r)).1,
         min (max (get_rent_for_month sched next - paidFor db next) 0) r +
          (allocateFuture sched fuel (next + 1)
            (db ++ [⟨next, min (max (get_rent_for_month sched next - paidFor db next) 0) r⟩])
            (r - min (max (get_rent_for_month sched next - paidFor db next) 0) r)).2.1,
         (allocateFuture sched fuel (next + 1)
            (db ++ [⟨next, min (max (get_rent_for_month sched next - paidFor db next) 0) r⟩])
            (r - min (max (get_rent_for_month sched next - paidFor db next) 0) r)).2.2) := rfl

/-- Conservation along the historical window: the created entries sum to
the collected amount, and collected + remaining equals the input. -/
lemma allocateWindow_conserves (sched : List SchedEntry) (months : List ℕ)
    (db : List Payment) (r : ℚ) :
    ((allocateWindow sched months db r).1.map (fun p => p.amount)).sum
        = (allocateWindow sched months db r).2.1 ∧
    (allocateWindow sched months db r).2.1 + (allocateWindow sched months db r).2.2 = r := by
  induction months generalizing db r with
  | nil => simp [allocateWindow]
  | cons m rest ih =>
    rw [allocateWindow_cons]
    by_cases h1 : r ≤ 0
    · simp [h1]
    · rw [if_neg h1]
      by_cases h2 : max (get_rent_for_month sched m - paidFor db m) 0 ≤ 0
      · rw [if_pos h2]
        exact ih db r
      · rw [if_neg h2]
        obtain ⟨ih1, ih2⟩ :=
          ih (db ++ [⟨m, min (max (get_rent_for_month sched m - paidFor db m) 0) r⟩])
            (r - min (max (get_rent_for_month sched m - paidFor db m) 0) r)
        refine ⟨by simp [ih1], by dsimp only; linarith⟩

/-- Conservation along the advance-months loop. -/
lemma allocateFuture_conserves (sched : List SchedEntry) (fuel next : ℕ)
    (db : List Payment) (r : ℚ) :
    ((allocateFuture sched fuel next db r).1.map (fun p => p.amount)).sum
        = (allocateFuture sched fuel next db r).2.1 ∧
    (allocateFuture sched fuel next db r).2.1 + (allocateFuture sched fuel next db r).2.2 = r := by
  induction fuel generalizing next db r with
  | zero => simp [allocateFuture]
  | succ fuel ih =>
    rw [allocateFuture_succ]
    by_cases h1 : r ≤ 0
    · simp [h1]
    · rw [if_neg h1]
      by_cases h2 : max (get_rent_for_month sched next - paidFor db next) 0 ≤ 0
      · rw [if_pos h2]
        exact ih (next + 1) db r
      · rw [if_neg h2]
        obtain ⟨ih1, ih2⟩ :=
          ih (next + 1)
            (db ++ [⟨next, min (max (get_rent_for_month sched next - paidFor db next) 0) r⟩])
            (r - min (max (get_rent_for_month sched next - paidFor db next) 0) r)
        refine ⟨by simp [ih1], by dsimp only; linarith⟩

lemma pos_of_not_max_le {x : ℚ} (h : ¬ max x 0 ≤ 0) : 0 < x := by
  rcases le_or_lt x 0 with hx | hx
  · exact absurd (by rw [max_eq_right hx]) h
  · exact hx

/-- Every entry the window loop creates is positive, bounded by the
month's remaining due against the ledger the loop started from, and
booked to a month of the window. -/
lemma allocateWindow_entries_spec (sched : List SchedEntry) (months : List ℕ)
    (db : List Payment) (r : ℚ) (hnd : months.Nodup) :
    ∀ p ∈ (allocateWindow sched months db r).1,
      0 < p.amount ∧
      p.amount ≤ get_rent_for_month sched p.payment_month - paidFor db p.payment_month ∧
      p.payment_month ∈ months := by
  induction months generalizing db r with
  | nil => simp [allocateWindow]
  | cons m rest ih =>
    rw [allocateWindow_cons]
    by_cases h1 : r ≤ 0
    · simp [h1]
    · rw [if_neg h1]
      by_cases h2 : max (get_rent_for_month sched m - paidFor db m) 0 ≤ 0
      · rw [if_pos h2]
        intro p hp
        obtain ⟨hpos, hle, hmem⟩ := ih db r (List.Nodup.of_cons hnd) p hp
        exact ⟨hpos, hle, List.mem_cons_of_mem m hmem⟩
      · rw [if_neg h2]
        have hdue : 0 < get_rent_for_month sched m - paidFor db m := pos_of_not_max_le h2
        have hmax : max (get_rent_for_month sched m - paidFor db m) 0
            = get_rent_for_month sched m - paidFor db m := max_eq_left (le_of_lt hdue)
        intro p hp
        rcases List.mem_cons.mp hp with rfl | hp'
        · refine ⟨?_, ?_, List.mem_cons_self m rest⟩
          · dsimp only
            rw [hmax]
            exact lt_min hdue (not_le.mp h1)
          · dsimp only
            rw [hmax]
            exact min_le_left _ _
        · obtain ⟨hpos, hle, hmem⟩ :=
            ih (db ++ [⟨m, min (max (get_rent_for_month sched m - paidFor db m) 0) r⟩])
              (r - min (max (get_rent_for_month sched m - paidFor db m) 0) r)
              (List.Nodup.of_cons hnd) p hp'
          have hne : m ≠ p.payment_month := by
            intro heq
            exact (List.nodup_cons.mp hnd).1 (heq ▸ hmem)
          rw [paidFor_append, paidFor_singleton, if_neg hne, add_zero] at hle
          exact ⟨hpos, hle, List.mem_cons_of_mem m hmem⟩

/-- Every entry the advance loop creates is positive, bounded by the
month's remaining due against the ledger the loop started from, and
booked to a month at or after `next`. -/
lemma allocateFuture_entries_spec (sched : List SchedEntry) (fuel next : ℕ)
    (db : List Payment) (r : ℚ) :
    ∀ p ∈ (allocateFuture sched fuel next db r).1,
      0 < p.amount ∧
      p.amount ≤ get_rent_for_month sched p.payment_month - paidFor db p.payment_month ∧
      next ≤ p.payment_month := by
  induction fuel generalizing next db r with
  | zero => simp [allocateFuture]
  | succ fuel ih =>
    rw [allocateFuture_succ]
    by_cases h1 : r ≤ 0
    · simp [h1]
    · rw [if_neg h1]
      by_cases h2 : max (get_rent_for_month sched next - paidFor db next) 0 ≤ 0
      · rw [if_pos h2]
        intro p hp
        obtain ⟨hpos, hle, hmem⟩ := ih (next + 1) db r p hp
        exact ⟨hpos, hle, by omega⟩
      · rw [if_neg h2]
        have hdue : 0 < get_rent_for_month sched next - paidFor db next := pos_of_not_max_le h2
        have hmax : max (get_rent_for_month sched next - paidFor db next) 0
            = get_rent_for_month sched next - paidFor db next := max_eq_left (le_of_lt hdue)
        intro p hp
        rcases List.mem_cons.mp hp with rfl | hp'
        · refine ⟨?_, ?_, le_refl next⟩
          · dsimp only
            rw [hmax]
            exact lt_min hdue (not_le.mp h1)
          · dsimp only
            rw [hmax]
            exact min_le_left _ _
        · obtain ⟨hpos, hle, hmem⟩ :=
            ih (next + 1)
              (db ++ [⟨next, min (max (get_rent_for_month sched next - paidFor db next) 0) r⟩])
              (r - min (max (get_rent_for_month sched next - paidFor db next) 0) r) p hp'
          have hne : next ≠ p.payment_month := by omega
          rw [paidFor_append, paidFor_singleton, if_neg hne, add_zero] at hle
          exact ⟨hpos, hle, by omega⟩

/-- The months of the entries created by the window loop are a
subsequence of the window — the loop visits months oldest first. -/
lemma allocateWindow_months_sublist (sched : List SchedEntry) (months : List ℕ)
    (db : List Payment) (r : ℚ) :
    ((allocateWindow sched months db r).1.map (fun p => p.payment_month)).Sublist months := by
  induction months generalizing db r with
  | nil => simp [allocateWindow]
  | cons m rest ih =>
    rw [allocateWindow_cons]
    by_cases h1 : r ≤ 0
    · simp [h1]
    · rw [if_neg h1]
      by_cases h2 : max (get_rent_for_month sched m - paidFor db m) 0 ≤ 0
      · rw [if_pos h2]
        exact (ih db r).cons m
      · rw [if_neg h2]
        exact (ih _ _).cons₂ m

/-- The months of the entries created by the advance loop strictly
increase — consecutive future months, each visited at most once. -/
lemma allocateFuture_months_pairwise (sched : List SchedEntry) (fuel next : ℕ)
    (db : List Payment) (r : ℚ) :
    ((allocateFuture sched fuel next db r).1.map (fun p => p.payment_month)).Pairwise (· < ·) := by
  induction fuel generalizing next db r with
  | zero => simp [allocateFuture]
  | succ fuel ih =>
    rw [allocateFuture_succ]
    by_cases h1 : r ≤ 0
    · simp [h1]
    · rw [if_neg h1]
      by_cases h2 : max (get_rent_for_month sched next - paidFor db next) 0 ≤ 0
      · rw [if_pos h2]
        exact ih (next + 1) db r
      · rw [if_neg h2]
        rw [List.map_cons, List.pairwise_cons]
        constructor
        · intro b hb
          obtain ⟨p, hp, rfl⟩ := List.mem_map.mp hb
          have := (allocateFuture_entries_spec sched fuel (next + 1) _ _ p hp).2.2
          show next < p.payment_month
          omega
        · exact ih (next + 1) _ _

lemma monthRange_nodup (a b : ℕ) : (monthRange a b).Nodup :=
  List.nodup_range' a (b + 1 - a)

lemma monthRange_pairwise (a b : ℕ) : (monthRange a b).Pairwise (· < ·) :=
  List.pairwise_lt_range' a (b + 1 - a) 1 (by simp)

/-- The month right after the allocation window strictly exceeds the
window's upper bound. -/
lemma monthRange_getLast_ge (a b : ℕ) : b ≤ (monthRange a b).getLast?.getD a := by
  unfold monthRange
  rcases Nat.eq_zero_or_pos (b + 1 - a) with h | h
  · rw [h]
    simp only [List.range'_zero, List.getLast?_nil, Option.getD_none]
    omega
  · rw [List.getLast?_range' (b + 1 - a)]
    rw [if_neg (by omega)]
    simp only [Option.getD_some]
    omega

/-- Unfolded form of `allocatePayment`. -/
lemma allocatePayment_eq (fuel : ℕ) (sched : List SchedEntry)
    (payments : List Payment) (s sel : ℕ) (amount : ℚ) :
    allocatePayment fuel sched payments s sel amount =
      ((allocateWindow sched (monthRange s sel) payments amount).1 ++
        (allocateFuture sched fuel ((monthRange s sel).getLast?.getD s + 1)
          (payments ++ (allocateWindow sched (monthRange s sel) payments amount).1)
          (allocateWindow sched (monthRange s sel) payments amount).2.2).1,
       (allocateWindow sched (monthRange s sel) payments amount).2.1 +
        (allocateFuture sched fuel ((monthRange s sel).getLast?.getD s + 1)
          (payments ++ (allocateWindow sched (monthRange s sel) payments amount).1)
          (allocateWindow sched (monthRange s sel) payments amount).2.2).2.1,
       (allocateFuture sched fuel ((monthRange s sel).getLast?.getD s + 1)
          (payments ++ (allocateWindow sched (monthRange s sel) payments amount).1)
          (allocateWindow sched (monthRange s sel) payments amount).2.2).2.2) := rfl

/-- Conservation for the whole allocation phase: the created entries sum
to the collected amount, and collected + remaining equals the input. -/
lemma allocatePayment_conserves (fuel : ℕ) (sched : List SchedEntry)
    (payments : List Payment) (s sel : ℕ) (amount : ℚ) :
    (((allocatePayment fuel sched payments s sel amount).1.map (fun p => p.amount)).sum
        = (allocatePayment fuel sched payments s sel amount).2.1) ∧
    ((allocatePayment fuel sched payments s sel amount).2.1
        + (allocatePayment fuel sched payments s sel amount).2.2 = amount) := by
  obtain ⟨hw1, hw2⟩ :=
    allocateWindow_conserves sched (monthRange s sel) payments amount
  obtain ⟨hf1, hf2⟩ :=
    allocateFuture_conserves sched fuel ((monthRange s sel).getLast?.getD s + 1)
      (payments ++ (allocateWindow sched (monthRange s sel) payments amount).1)
      (allocateWindow sched (monthRange s sel) payments amount).2.2
  rw [allocatePayment_eq]
  constructor
  · rw [List.map_append, List.sum_append, hw1, hf1]
  · dsimp only
    linarith

/-- Every entry the allocation phase creates is positive and bounded by
its month's remaining due measured against the pre-call ledger. -/
lemma allocatePayment_entries_spec (fuel : ℕ) (sched : List SchedEntry)
    (payments : List Payment) (s sel : ℕ) (amount : ℚ) :
    ∀ p ∈ (allocatePayment fuel sched payments s sel amount).1,
      0 < p.amount ∧
      p.amount ≤ get_rent_for_month sched p.payment_month - paidFor payments p.payment_month := by
  rw [allocatePayment_eq]
  intro p hp
  have hwmonths : ∀ q ∈ (allocateWindow sched (monthRange s sel) payments amount).1,
      q.payment_month ≤ sel := fun q hq =>
    (mem_monthRange ((allocateWindow_entries_spec sched (monthRange s sel) payments amount
      (monthRange_nodup s sel) q hq).2.2)).2
  rcases List.mem_append.mp hp with hw | hf
  · obtain ⟨hpos, hle, -⟩ :=
      allocateWindow_entries_spec sched (monthRange s sel) payments amount
        (monthRange_nodup s sel) p hw
    exact ⟨hpos, hle⟩
  · obtain ⟨hpos, hle, hnext⟩ :=
      allocateFuture_entries_spec sched fuel ((monthRange s sel).getLast?.getD s + 1)
        (payments ++ (allocateWindow sched (monthRange s sel) payments amount).1)
        (allocateWindow sched (monthRange s sel) payments amount).2.2 p hf
    have hlast := monthRange_getLast_ge s sel
    have hzero : paidFor (allocateWindow sched (monthRange s sel) payments amount).1
        p.payment_month = 0 :=
      paidFor_eq_zero_of_not_mem _ _
        (fun q hq heq => by have := hwmonths q hq; omega)
    rw [paidFor_append, hzero, add_zero] at hle
    exact ⟨hpos, hle⟩

/-- One unfolding step of `specSplit` on a nonempty month list. -/
lemma specSplit_cons (dueOf already_paid : ℕ → ℚ) (m : ℕ) (rest : List ℕ) (left : ℚ) :
    specSplit dueOf already_paid (m :: rest) left =
      if left ≤ 0 then []
      else if dueOf m - already_paid m ≤ 0 then specSplit dueOf already_paid rest left
      else
        (⟨m, min (dueOf m - already_paid m) left⟩ : Payment) ::
          specSplit dueOf already_paid rest (left - min (dueOf m - already_paid m) left) := rfl

/-- The window loop of `add_payment` computes exactly the spec's
per-month split: the live-ledger queries inside the loop agree with the
pre-call ledger because each month is visited at most once. -/
lemma allocateWindow_eq_specSplit (sched : List SchedEntry) (payments : List Payment)
    (months : List ℕ) (extra : List Payment) (r : ℚ)
    (hnd : months.Nodup) (hdisj : ∀ q ∈ extra, q.payment_month ∉ months) :
    (allocateWindow sched months (payments ++ extra) r).1
      = specSplit (get_rent_for_month sched) (fun m => paidFor payments m) months r := by
  induction months generalizing extra r with
  | nil => rfl
  | cons m rest ih =>
    have hpm : paidFor (payments ++ extra) m = paidFor payments m := by
      rw [paidFor_append,
        paidFor_eq_zero_of_not_mem extra m
          (fun q hq heq => hdisj q hq (heq ▸ List.mem_cons_self m rest)),
        add_zero]
    have hdisj' : ∀ q ∈ extra, q.payment_month ∉ rest :=
      fun q hq hmem => hdisj q hq (List.mem_cons_of_mem m hmem)
    rw [allocateWindow_cons, specSplit_cons]
    by_cases h1 : r ≤ 0
    · rw [if_pos h1, if_pos h1]
    · rw [if_neg h1, if_neg h1]
      by_cases h2 : get_rent_for_month sched m - paidFor payments m ≤ 0
      · have h2' : max (get_rent_for_month sched m - paidFor (payments ++ extra) m) 0 ≤ 0 := by
          rw [hpm]
          exact max_le h2 le_rfl
        rw [if_pos h2', if_pos h2]
        exact ih extra r (List.Nodup.of_cons hnd) hdisj'
      · have hdp : 0 < get_rent_for_month sched m - paidFor payments m := not_le.mp h2
        have h2' : ¬ max (get_rent_for_month sched m - paidFor (payments ++ extra) m) 0 ≤ 0 := by
          rw [hpm, max_eq_left (le_of_lt hdp)]
          exact h2
        rw [if_neg h2', if_neg h2]
        have hto : min (max (get_rent_for_month sched m - paidFor (payments ++ extra) m) 0) r
            = min (get_rent_for_month sched m - paidFor payments m) r := by
          rw [hpm, max_eq_left (le_of_lt hdp)]
        rw [hto]
        dsimp only
        congr 1
        rw [List.append_assoc]
        have hdisj2 : ∀ q ∈ extra ++
            [(⟨m, min (get_rent_for_month sched m - paidFor payments m) r⟩ : Payment)],
            q.payment_month ∉ rest := by
          intro q hq
          rcases List.mem_append.mp hq with hq' | hq'
          · exact hdisj' q hq'
          · rw [List.mem_singleton.mp hq']
            exact (List.nodup_cons.mp hnd).1
        exact ih (extra ++ [⟨m, min (get_rent_for_month sched m - paidFor payments m) r⟩])
          (r - min (get_rent_for_month sched m - paidFor payments m) r)
          (List.Nodup.of_cons hnd) hdisj2

/-- `specSplit` depends only on the due/paid state of the months it
visits: identical due/paid state yields the identical per-month split. -/
lemma specSplit_congr (months : List ℕ) (d₁ d₂ a₁ a₂ : ℕ → ℚ) (r : ℚ)
    (h : ∀ m ∈ months, d₁ m = d₂ m ∧ a₁ m = a₂ m) :
    specSplit d₁ a₁ months r = specSplit d₂ a₂ months r := by
  induction months generalizing r with
  | nil => rfl
  | cons m rest ih =>
    obtain ⟨hd, ha⟩ := h m (List.mem_cons_self m rest)
    have htail : ∀ m' ∈ rest, d₁ m' = d₂ m' ∧ a₁ m' = a₂ m' :=
      fun m' hm' => h m' (List.mem_cons_of_mem m hm')
    rw [specSplit_cons, specSplit_cons, hd, ha]
    by_cases h1 : r ≤ 0
    · rw [if_pos h1, if_pos h1]
    · rw [if_neg h1, if_neg h1]
      by_cases h2 : d₂ m - a₂ m ≤ 0
      · rw [if_pos h2, if_pos h2]
        exact ih r htail
      · rw [if_neg h2, if_neg h2]
        rw [ih (r - min (d₂ m - a₂ m) r) htail]

/-! Section C3 — conservation of funds -/

/-- Claim C3: for every payment allocation with positive input amount that
runs to completion (`remaining_amount = 0` — the loop's only exit with
funds distributed), the amounts of the ledger entries created by the one
call sum exactly to the input amount, every entry is positive, and no
entry exceeds its month's remaining due against the pre-call ledger. -/
theorem C3_conservation_of_funds (fuel : ℕ) (sched : List SchedEntry)
    (payments : List Payment) (rates : List SchedEntry) (s sel payM : ℕ) (amount : ℚ)
    (hpos : 0 < amount)
    (hdone : (add_payment fuel sched payments rates s sel payM amount).remaining_amount = 0) :
    (((add_payment fuel sched payments rates s sel payM amount).entries.map
        (fun p => p.amount)).sum = amount) ∧
    (∀ p ∈ (add_payment fuel sched payments rates s sel payM amount).entries,
      0 < p.amount ∧
      p.amount + paidFor payments p.payment_month
        ≤ get_rent_for_month sched p.payment_month) := by
  have hne : ¬ amount ≤ 0 := not_le.mpr hpos
  have hentry : (add_payment fuel sched payments rates s sel payM amount).entries
      = (allocatePayment fuel sched payments s sel amount).1 := by
    rw [add_payment, if_neg hne]
  have hrem : (add_payment fuel sched payments rates s sel payM amount).remaining_amount
      = (allocatePayment fuel sched payments s sel amount).2.2 := by
    rw [add_payment, if_neg hne]
  obtain ⟨hc1, hc2⟩ := allocatePayment_conserves fuel sched payments s sel amount
  constructor
  · rw [hentry, hc1]
    rw [hrem] at hdone
    linarith
  · rw [hentry]
    intro p hp
    obtain ⟨h1, h2⟩ := allocatePayment_entries_spec fuel sched payments s sel amount p hp
    exact ⟨h1, by linarith⟩

/-- Witness for C3: rent 1000/month from month 0, empty ledger, paying
2500 up to month 1 — months 0 and 1 get 1000 each and month 2 gets the
500 advance; the split sums to the input. -/
theorem C3_conservation_of_funds_witness :
    (0 < (2500 : ℚ) ∧
      (add_payment 5 [⟨0, 1000⟩] [] [] 0 1 0 2500).remaining_amount = 0) ∧
    ((((add_payment 5 [⟨0, 1000⟩] [] [] 0 1 0 2500).entries.map
        (fun p => p.amount)).sum = 2500) ∧
      (∀ p ∈ (add_payment 5 [⟨0, 1000⟩] [] [] 0 1 0 2500).entries,
        0 < p.amount ∧
        p.amount + paidFor [] p.payment_month
          ≤ get_rent_for_month [⟨0, 1000⟩] p.payment_month)) := by
  have hd : (add_payment 5 [⟨0, 1000⟩] [] [] 0 1 0 2500).remaining_amount = 0 := by
    norm_num [add_payment, allocatePayment, allocateWindow, allocateFuture,
      monthRange, List.range', get_rent_for_month, latestAtOrBefore, paidFor]
  exact ⟨⟨by norm_num, hd⟩,
    C3_conservation_of_funds 5 [⟨0, 1000⟩] [] [] 0 1 0 2500 (by norm_num) hd⟩

/-! Section C4 — oldest-first, per-month deterministic split -/

/-- Claim C4: the historical allocation loop of `add_payment` visits the
candidate months `[start, up_to]` in chronological order (the months of
its entries strictly increase), produces exactly the spec's per-month
split (`remaining_due = due − already_paid`, skip if `≤ 0`, else one
entry of `min(remaining_due, amount_left)` decrementing `amount_left`),
and is deterministic in the due/paid state: any functions agreeing with
the ledger on the window produce the identical split. -/
theorem C4_oldest_first_deterministic_split (sched : List SchedEntry)
    (payments : List Payment) (s upTo : ℕ) (amount : ℚ) :
    ((allocateWindow sched (monthRange s upTo) payments amount).1
        = specSplit (get_rent_for_month sched) (fun m => paidFor payments m)
            (monthRange s upTo) amount) ∧
    (((allocateWindow sched (monthRange s upTo) payments amount).1.map
        (fun p => p.payment_month)).Pairwise (· < ·)) ∧
    (∀ dueOf₂ paid₂ : ℕ → ℚ,
      (∀ m ∈ monthRange s upTo, get_rent_for_month sched m = dueOf₂ m ∧
          paidFor payments m = paid₂ m) →
      (allocateWindow sched (monthRange s upTo) payments amount).1
        = specSplit dueOf₂ paid₂ (monthRange s upTo) amount) := by
  have h1 : (allocateWindow sched (monthRange s upTo) payments amount).1
      = specSplit (get_rent_for_month sched) (fun m => paidFor payments m)
          (monthRange s upTo) amount := by
    have h := allocateWindow_eq_specSplit sched payments (monthRange s upTo) [] amount
      (monthRange_nodup s upTo) (by simp)
    rwa [List.append_nil] at h
  refine ⟨h1, ?_, ?_⟩
  · exact List.Pairwise.sublist
      (allocateWindow_months_sublist sched (monthRange s upTo) payments amount)
      (monthRange_pairwise s upTo)
  · intro dueOf₂ paid₂ h
    rw [h1]
    exact specSplit_congr (monthRange s upTo) _ _ _ _ amount h

/-- Witness for C4: months 0–2 with rent 1000, month 0 already fully
paid and month 1 partially paid (300); allocating 1500 is the same split
whether computed against the ledger or any functions agreeing with it. -/
theorem C4_oldest_first_deterministic_split_witness :
    (allocateWindow [⟨0, 1000⟩] (monthRange 0 2) [⟨0, 1000⟩, ⟨1, 300⟩] 1500).1
      = specSplit (fun _ => 1000)
          (fun m => if m = 0 then 1000 else if m = 1 then 300 else 0)
          (monthRange 0 2) 1500 :=
  (C4_oldest_first_deterministic_split [⟨0, 1000⟩] [⟨0, 1000⟩, ⟨1, 300⟩] 0 2 1500).2.2
    (fun _ => 1000) (fun m => if m = 0 then 1000 else if m = 1 then 300 else 0)
    (by
      intro m hm
      rw [show monthRange 0 2 = [0, 1, 2] from rfl] at hm
      fin_cases hm <;>
        norm_num [get_rent_for_month, latestAtOrBefore, paidFor])

/-! Section C6 — termination of the advance-allocation loop -/

lemma allocateFuture_empty_sched (fuel next : ℕ) (r : ℚ) :
    allocateFuture [] fuel next [] r = ([], 0, r) := by
  induction fuel generalizing next with
  | zero => rfl
  | succ fuel ih =>
    rw [allocateFuture_succ]
    by_cases h1 : r ≤ 0
    · rw [if_pos h1]
    · rw [if_neg h1,
        if_pos (by norm_num [get_rent_for_month, latestAtOrBefore, paidFor])]
      exact ih (next + 1)

/-- Claim C6 fails on the code: for a subject whose schedule yields a zero
due for every month (e.g. a tenant with no `TenantRent` rows —
`views.get_rent_for_month` then returns 0 everywhere), a positive
payment of 100 makes the advance-allocation loop spin forever: after any
number `fuel` of loop iterations, `remaining_amount` is still 100 and no
entry has been created, so `amount_left` never reaches zero and the
source's unbounded `while remaining_amount > 0` loop does not terminate. -/
theorem C6_advance_loop_never_terminates_on_zero_due (fuel : ℕ) :
    add_payment fuel [] [] [] 0 0 0 100 =
      { entries := [], collected_amount := 0, remaining_amount := 100,
        commission_amount := 0, commission_created := false } := by
  have hw : allocateWindow [] (monthRange 0 0) [] 100 = ([], 0, 100) := by
    norm_num [monthRange, List.range', allocateWindow_cons, allocateWindow,
      get_rent_for_month, latestAtOrBefore, paidFor]
  rw [add_payment, if_neg (by norm_num : ¬ (100 : ℚ) ≤ 0)]
  simp only [allocatePayment_eq, hw]
  norm_num [allocateFuture_empty_sched, get_commission_rate_for_date,
    latestAtOrBefore, quantize2, roundHalfEven]

/-! Section C7 — commission fee -/

/-- Claim C7: after a payment allocation, the commission fee equals
`collected_amount * rate / 100` quantized to 2 decimal places
(half-even), where the rate is the latest `CommissionRate` entry with
`effective_from ≤` the month of the payment date (0 when none is
configured), and a commission expense row is created iff the fee is
positive; in particular collecting 100000 at a 10.00% rate yields a fee
of exactly 10000.00. -/
theorem C7_commission_fee (fuel : ℕ) (sched : List SchedEntry)
    (payments : List Payment) (rates : List SchedEntry) (s sel payM : ℕ) (amount : ℚ) :
    ((add_payment fuel sched payments rates s sel payM amount).commission_amount
        = quantize2 ((add_payment fuel sched payments rates s sel payM amount).collected_amount
            * get_commission_rate_for_date rates payM / 100)) ∧
    ((add_payment fuel sched payments rates s sel payM amount).commission_created
        ↔ 0 < (add_payment fuel sched payments rates s sel payM amount).commission_amount) ∧
    (get_commission_rate_for_date [] payM = 0) ∧
    (quantize2 ((100000 : ℚ) * 10 / 100) = 10000) := by
  refine ⟨?_, ?_, rfl, by norm_num [quantize2, roundHalfEven]⟩
  · by_cases h : amount ≤ 0
    · rw [add_payment, if_pos h]
      norm_num [quantize2, roundHalfEven]
    · rw [add_payment, if_neg h]
  · by_cases h : amount ≤ 0
    · rw [add_payment, if_pos h]
      norm_num [quantize2, roundHalfEven]
    · rw [add_payment, if_neg h]
      simp [decide_eq_true_iff]

/-! Section: Salary payment (`pay_salary`) and schedule changes -/

/-- An `ExpenseCategory` row. -/
structure ExpenseCategory where
  id : ℕ
  name : List Char
deriving Repr, DecidableEq

/-- An `Expense` row, with the fields `pay_salary` and the duplicate
check read or write.  (`pay_salary` leaves the model's `employee` and
`expense_month` columns NULL — its `create` call sets neither — so the
table-level uniqueness constraint on (employee, expense_month, category)
never fires for salary expenses; only the description marker check
below guards against duplicates.) -/
structure Expense where
  amount : ℚ
  description : List Char
  is_recurring : Bool
  date : ℕ
  propertyId : ℕ
  category : Option ℕ
deriving Repr, DecidableEq

/-- `ExpenseCategory.objects.filter(name__iexact="salary").first()`,
as the category id (`None` when no such category exists; a Django filter
on `category=None` then matches rows with a NULL category). -/
def findSalaryCategory (cats : List ExpenseCategory) : Option ℕ :=
  (cats.find? (fun c => c.name.map Char.toLower == "salary".data)).map (fun c => c.id)

/-- `marker = f"[Emp #{employee.id}]"` — the stable duplicate-detection
marker, independent of the employee's display name. -/
def empMarker (empId : ℕ) : List Char :=
  "[Emp #".data ++ (Nat.repr empId).data ++ "]".data

/-- `f"Salary — {employee.name} {marker} ({salary_month.strftime('%B %Y')})"`
(the month label is modelled by the month's decimal numeral — like the
`strftime` label, injective on month starts). -/
def salaryLabel (empName : List Char) (empId salary_month : ℕ) : List Char :=
  "Salary — ".data ++ empName ++ " ".data ++ empMarker empId ++ " (".data
    ++ (Nat.repr salary_month).data ++ ")".data

/-- Django's `description__contains=marker`: substring test. -/
def containsSub (l sub : List Char) : Bool :=
  (List.range (l.length + 1)).any (fun i => sub.isPrefixOf (l.drop i))

/-- The duplicate-check filter of `pay_salary`:
`Expense.objects.filter(category=salary_category, date=salary_month,
description__contains=marker)`. -/
def salaryExpenseMatches (salary_category : Option ℕ) (marker : List Char)
    (salary_month : ℕ) (e : Expense) : Bool :=
  e.category == salary_category && e.date == salary_month &&
    containsSub e.description marker

inductive SalaryError
  | noSalary
  | alreadyPaid
deriving Repr, DecidableEq

/-- The POST branch of `pay_salary`: look up the salary for the selected
month (refuse when unset), refuse when a salary expense with the
employee's marker already exists for that month, otherwise create the
expense — dated to the salary month, not to `date_paid` (the parsed
payment date is unused by the `create` call). -/
def pay_salary (cats : List ExpenseCategory) (expenses : List Expense)
    (salary_sched : List SchedEntry) (empId : ℕ) (empName : List Char)
    (empPropertyId : ℕ) (salary_month : ℕ) (date_paid : ℕ) :
    Except SalaryError (List Expense) :=
  match get_salary_for_month salary_sched salary_month with
  | none => .error .noSalary
  | some salary_amount =>
    let salary_category := findSalaryCategory cats
    let marker := empMarker empId
    let salary_label := salaryLabel empName empId salary_month
    let already_paid :=
      expenses.any (salaryExpenseMatches salary_category marker salary_month)
    if already_paid then .error .alreadyPaid
    else
      .ok (expenses ++
        [{ amount := salary_amount, description := salary_label,
           is_recurring := false, date := salary_month,
           propertyId := empPropertyId, category := salary_category }])

/-- The rent-change part of the `edit_tenant` POST: reject non-positive
amounts, reject effective months before the current month, otherwise
update the existing row for (tenant, month) in place or append a new
one. -/
def upsertSched (sched : List SchedEntry) (effective_month : ℕ) (v : ℚ) :
    List SchedEntry :=
  match sched.find? (fun r => r.effective_from == effective_month) with
  | some _ => sched.map (fun r =>
      if r.effective_from == effective_month then ⟨r.effective_from, v⟩ else r)
  | none => sched ++ [⟨effective_month, v⟩]

inductive ChangeOutcome
  | ok
  | rejectedNonPositive
  | rejectedRetroactive
deriving Repr, DecidableEq

def edit_tenant_rent_change (sched : List SchedEntry) (today_month : ℕ)
    (new_rent : ℚ) (effective_month : ℕ) : ChangeOutcome × List SchedEntry :=
  if new_rent ≤ 0 then (.rejectedNonPositive, sched)
  else if effective_month < today_month then (.rejectedRetroactive, sched)
  else (.ok, upsertSched sched effective_month new_rent)

/-- The salary-change POST of `change_salary`: same validation order —
non-positive salary rejected, then the retroactivity ban, then upsert. -/
def change_salary (sched : List SchedEntry) (today_month : ℕ)
    (new_salary : ℚ) (effective_month : ℕ) : ChangeOutcome × List SchedEntry :=
  if new_salary ≤ 0 then (.rejectedNonPositive, sched)
  else if effective_month < today_month then (.rejectedRetroactive, sched)
  else (.ok, upsertSched sched effective_month new_salary)

/-! Section C8 — duplicate salary payment blocked -/

lemma containsSub_of_append (a sub b : List Char) :
    containsSub (a ++ sub ++ b) sub = true := by
  unfold containsSub
  rw [List.any_eq_true]
  refine ⟨a.length, List.mem_range.mpr ?_, ?_⟩
  · simp only [List.length_append]
    omega
  · rw [List.append_assoc, List.drop_left]
    rw [List.isPrefixOf_iff_prefix]
    exact List.prefix_append sub b

lemma salaryLabel_contains_marker (empName : List Char) (empId m : ℕ) :
    containsSub (salaryLabel empName empId m) (empMarker empId) = true := by
  have hsplit : salaryLabel empName empId m
      = ("Salary — ".data ++ empName ++ " ".data) ++ empMarker empId ++
        (" (".data ++ (Nat.repr m).data ++ ")".data) := by
    unfold salaryLabel
    simp [List.append_assoc]
  rw [hsplit]
  exact containsSub_of_append _ _ _

/-- The expense `pay_salary` creates passes its own duplicate filter. -/
lemma new_salary_expense_matches (cats : List ExpenseCategory) (empName : List Char)
    (empId propId salary_month : ℕ) (v : ℚ) :
    salaryExpenseMatches (findSalaryCategory cats) (empMarker empId) salary_month
      { amount := v, description := salaryLabel empName empId salary_month,
        is_recurring := false, date := salary_month,
        propertyId := propId, category := findSalaryCategory cats } = true := by
  unfold salaryExpenseMatches
  simp [salaryLabel_contains_marker]

/-- Claim C8: paying salary twice for the same (employee, month) fails on
the second call — after a successful `pay_salary`, repeating it for the
same employee and month (any payment date) is refused with the
duplicate error and writes nothing, and the expense table holds exactly
one expense matching the employee/month duplicate filter (the stable
`[Emp #id]` marker with the salary month and salary category) where the
pre-call table held none. -/
theorem C8_duplicate_salary_blocked (cats : List ExpenseCategory)
    (expenses : List Expense) (salary_sched : List SchedEntry) (empId : ℕ)
    (empName : List Char) (propId salary_month d₁ d₂ : ℕ) (out : List Expense)
    (h : pay_salary cats expenses salary_sched empId empName propId salary_month d₁
        = .ok out) :
    (pay_salary cats out salary_sched empId empName propId salary_month d₂
        = .error SalaryError.alreadyPaid) ∧
    ((expenses.filter (salaryExpenseMatches (findSalaryCategory cats)
        (empMarker empId) salary_month)).length = 0) ∧
    ((out.filter (salaryExpenseMatches (findSalaryCategory cats)
        (empMarker empId) salary_month)).length = 1) := by
  cases hsal : get_salary_for_month salary_sched salary_month with
  | none =>
    rw [pay_salary, hsal] at h
    exact absurd h (by simp)
  | some v =>
    rw [pay_salary, hsal] at h
    dsimp only at h
    by_cases hap : expenses.any (salaryExpenseMatches (findSalaryCategory cats)
        (empMarker empId) salary_month) = true
    · rw [if_pos hap] at h
      exact absurd h (by simp)
    · rw [if_neg hap] at h
      have hout : out = expenses ++
          [{ amount := v, description := salaryLabel empName empId salary_month,
             is_recurring := false, date := salary_month,
             propertyId := propId, category := findSalaryCategory cats }] :=
        Except.ok.inj h.symm
      have hfalse : ∀ e ∈ expenses,
          ¬ salaryExpenseMatches (findSalaryCategory cats) (empMarker empId)
              salary_month e = true := by
        intro e he
        exact fun hme => hap (List.any_eq_true.mpr ⟨e, he, hme⟩)
      refine ⟨?_, ?_, ?_⟩
      · rw [pay_salary, hsal]
        dsimp only
        have hap2 : out.any (salaryExpenseMatches (findSalaryCategory cats)
            (empMarker empId) salary_month) = true := by
          rw [hout]
          refine List.any_eq_true.mpr ⟨_, List.mem_append_right expenses
            (List.mem_singleton.mpr rfl), ?_⟩
          exact new_salary_expense_matches cats empName empId propId salary_month v
        rw [if_pos hap2]
      · rw [List.length_eq_zero, List.filter_eq_nil_iff]
        exact hfalse
      · rw [hout, List.filter_append]
        rw [List.filter_eq_nil_iff.mpr hfalse]
        simp [new_salary_expense_matches cats empName empId propId salary_month v]

/-- Witness for C8: employee 7 ("Ann"), salary 500 effective month 0,
category "Salary", paying month 3 twice (payment dates 9 then 11). -/
theorem C8_duplicate_salary_blocked_witness :
    (pay_salary [⟨1, "Salary".data⟩]
        ([] ++ [{ amount := 500, description := salaryLabel "Ann".data 7 3,
                  is_recurring := false, date := 3, propertyId := 1,
                  category := findSalaryCategory [⟨1, "Salary".data⟩] }])
        [⟨0, 500⟩] 7 "Ann".data 1 3 11 = .error SalaryError.alreadyPaid) ∧
    ((([] : List Expense).filter (salaryExpenseMatches
        (findSalaryCategory [⟨1, "Salary".data⟩]) (empMarker 7) 3)).length = 0) ∧
    (((([] ++ [{ amount := 500, description := salaryLabel "Ann".data 7 3,
                 is_recurring := false, date := 3, propertyId := 1,
                 category := findSalaryCategory [⟨1, "Salary".data⟩] }]) :
        List Expense).filter (salaryExpenseMatches
        (findSalaryCategory [⟨1, "Salary".data⟩]) (empMarker 7) 3)).length = 1) :=
  C8_duplicate_salary_blocked [⟨1, "Salary".data⟩] [] [⟨0, 500⟩] 7 "Ann".data 1 3 9 11
    _ rfl

/-! Section C9 — retroactive schedule changes rejected -/

/-- Claim C9: a schedule-change request (tenant rent via `edit_tenant`, or
employee salary via `change_salary`) whose effective month is earlier
than the current month is rejected before any write — the outcome is not
`ok` and the schedule is returned unchanged, no entry created or
modified. -/
theorem C9_retroactive_change_rejected (rent_sched salary_sched : List SchedEntry)
    (today_month : ℕ) (new_rent new_salary : ℚ) (effective_month : ℕ)
    (h : effective_month < today_month) :
    ((edit_tenant_rent_change rent_sched today_month new_rent effective_month).1
        ≠ ChangeOutcome.ok ∧
     (edit_tenant_rent_change rent_sched today_month new_rent effective_month).2
        = rent_sched) ∧
    ((change_salary salary_sched today_month new_salary effective_month).1
        ≠ ChangeOutcome.ok ∧
     (change_salary salary_sched today_month new_salary effective_month).2
        = salary_sched) := by
  unfold edit_tenant_rent_change change_salary
  constructor
  · by_cases hv : new_rent ≤ 0
    · rw [if_pos hv]
      exact ⟨by simp, rfl⟩
    · rw [if_neg hv, if_pos h]
      exact ⟨by simp, rfl⟩
  · by_cases hv : new_salary ≤ 0
    · rw [if_pos hv]
      exact ⟨by simp, rfl⟩
    · rw [if_neg hv, if_pos h]
      exact ⟨by simp, rfl⟩

/-- Witness for C9: schedules with one entry each, current month 3,
requested effective month 1. -/
theorem C9_retroactive_change_rejected_witness :
    ((edit_tenant_rent_change [⟨0, 800⟩] 3 1200 1).1 ≠ ChangeOutcome.ok ∧
     (edit_tenant_rent_change [⟨0, 800⟩] 3 1200 1).2 = [⟨0, 800⟩]) ∧
    ((change_salary [⟨0, 900⟩] 3 1300 1).1 ≠ ChangeOutcome.ok ∧
     (change_salary [⟨0, 900⟩] 3 1300 1).2 = [⟨0, 900⟩]) :=
  C9_retroactive_change_rejected [⟨0, 800⟩] [⟨0, 900⟩] 3 1200 1300 1 (by norm_num)

/-! Section C10 — salary expense dated to the salary month -/

/-- Claim C10: a successful salary payment creates exactly one expense,
dated to the first day of the salary month being paid; the
payment-received date supplied by the caller is parsed but affects no
stored field — `pay_salary` returns identical results for any two
payment dates. -/
theorem C10_salary_expense_dated_to_salary_month (cats : List ExpenseCategory)
    (expenses : List Expense) (salary_sched : List SchedEntry) (empId : ℕ)
    (empName : List Char) (propId salary_month : ℕ) :
    (∀ d₁ d₂ : ℕ,
      pay_salary cats expenses salary_sched empId empName propId salary_month d₁
        = pay_salary cats expenses salary_sched empId empName propId salary_month d₂) ∧
    (∀ d out,
      pay_salary cats expenses salary_sched empId empName propId salary_month d
          = .ok out →
      ∃ e : Expense, out = expenses ++ [e] ∧ e.date = salary_month) := by
  constructor
  · intro d₁ d₂
    rfl
  · intro d out h
    cases hsal : get_salary_for_month salary_sched salary_month with
    | none =>
      rw [pay_salary, hsal] at h
      exact absurd h (by simp)
    | some v =>
      rw [pay_salary, hsal] at h
      dsimp only at h
      by_cases hap : expenses.any (salaryExpenseMatches (findSalaryCategory cats)
          (empMarker empId) salary_month) = true
      · rw [if_pos hap] at h
        exact absurd h (by simp)
      · rw [if_neg hap] at h
        refine ⟨{ amount := v, description := salaryLabel empName empId salary_month,
                  is_recurring := false, date := salary_month,
                  propertyId := propId, category := findSalaryCategory cats },
          ?_, rfl⟩
        exact Except.ok.inj h.symm

/-- Witness for C10: the expense created for salary month 3 is dated 3
regardless of the payment date. -/
theorem C10_salary_expense_dated_to_salary_month_witness :
    (∀ d₁ d₂ : ℕ,
      pay_salary [⟨1, "Salary".data⟩] [] [⟨0, 500⟩] 7 "Ann".data 1 3 d₁
        = pay_salary [⟨1, "Salary".data⟩] [] [⟨0, 500⟩] 7 "Ann".data 1 3 d₂) ∧
    (∃ e : Expense,
      ([] ++ [{ amount := 500, description := salaryLabel "Ann".data 7 3,
                is_recurring := false, date := 3, propertyId := 1,
                category := findSalaryCategory [⟨1, "Salary".data⟩] }] :
          List Expense) = [] ++ [e] ∧ e.date = 3) :=
  ⟨(C10_salary_expense_dated_to_salary_month [⟨1, "Salary".data⟩] [] [⟨0, 500⟩]
      7 "Ann".data 1 3).1,
   (C10_salary_expense_dated_to_salary_month [⟨1, "Salary".data⟩] [] [⟨0, 500⟩]
      7 "Ann".data 1 3).2 9 _ rfl⟩

end Estate
